import Mathlib

/-!
Shallow embedding of the persistence and data-management layer of the
expense-tracking application (src/services/db.ts together with its
orchestrating callers in src/App.tsx and src/components/Summary.tsx).

The IndexedDB object stores are modelled as lists of records; the store
named transactions is keyed by the id field and carries a secondary index
on the date field, the store named budgets is keyed by the month field.
IndexedDB getAll on a store returns records in ascending primary-key
order; getAll on an index returns them in ascending index-key order with
ties broken by ascending primary key.  The JavaScript Array sort is a
stable sort and is modelled by the stable insertion sort of Mathlib.
JavaScript numbers that hold currency values are modelled by Rat and the
epoch-millisecond timestamps by Nat; date, time and month tokens are the
zero-padded ASCII strings of the source, compared lexicographically
exactly as IndexedDB compares string keys.
-/

/-- A Decidable instance for the string order that the kernel can
evaluate, replacing the iterator-based decision procedure of core. -/
instance (priority := 10000) decStrLe (x y : String) : Decidable (x ≤ y) :=
  decidable_of_iff (¬ y.data < x.data)
    (by rw [String.le_iff_toList_le]; exact not_lt (α := List Char))

/-- A Decidable instance for the strict string order that the kernel can
evaluate. -/
instance (priority := 10000) decStrLt (x y : String) : Decidable (x < y) :=
  decidable_of_iff (¬ y ≤ x) not_le

/-- Payment method enumeration from src/types (part_002). -/
inductive PaymentMethod where
  | DEBIT
  | CREDIT
deriving DecidableEq, Repr

/-- A Transaction record, as in src/types (part_002). -/
structure Transaction where
  id : String
  description : String
  amount : Rat
  method : PaymentMethod
  date : String
  time : String
  createdAt : Nat
deriving DecidableEq, Repr

/-- A MonthlyBudget record, as in src/types (part_002). -/
structure MonthlyBudget where
  month : String
  limit : Rat
deriving DecidableEq, Repr

/-- The content of the two IndexedDB object stores of ExpenseManagerDB. -/
structure DB where
  transactions : List Transaction
  budgets : List MonthlyBudget
deriving DecidableEq, Repr

/-- Errors surfaced by the layer: ConstraintError of an IndexedDB add maps
to duplicateKey, the generic Error thrown by the backup validation in
App.handleFileChange maps to invalidBackup, a TypeError from reading a
missing field maps to typeError, an engine-level failure maps to
storageError; validationError is the taxonomy entry for rejected negative
amounts or limits. -/
inductive DBError where
  | duplicateKey
  | invalidBackup
  | typeError
  | storageError
  | validationError
deriving DecidableEq, Repr

/-- addTransaction (src/services/db.ts): IndexedDB add fails when the key
already exists and then applies nothing; otherwise the record is stored. -/
def addTransaction (t : Transaction) (db : DB) : DB × Option DBError :=
  if db.transactions.any (fun u => u.id = t.id) then
    (db, some DBError.duplicateKey)
  else
    ({ db with transactions := db.transactions ++ [t] }, none)

/-- updateTransaction (src/services/db.ts): IndexedDB put upserts by key,
replacing the record with the same id or storing a new one. -/
def updateTransaction (t : Transaction) (db : DB) : DB :=
  if db.transactions.any (fun u => u.id = t.id) then
    { db with transactions := db.transactions.map (fun u => if u.id = t.id then t else u) }
  else
    { db with transactions := db.transactions ++ [t] }

/-- deleteTransaction (src/services/db.ts): IndexedDB delete removes the
record with the given key when present and succeeds either way. -/
def deleteTransaction (id : String) (db : DB) : DB :=
  { db with transactions := db.transactions.filter (fun u => ¬ u.id = id) }

/-- setMonthlyBudget (src/services/db.ts): IndexedDB put upserts by the
month key. -/
def setMonthlyBudget (b : MonthlyBudget) (db : DB) : DB :=
  if db.budgets.any (fun u => u.month = b.month) then
    { db with budgets := db.budgets.map (fun u => if u.month = b.month then b else u) }
  else
    { db with budgets := db.budgets ++ [b] }

/-- getMonthlyBudget (src/services/db.ts): get by the month key, with the
expression data ? data.limit : 0 defaulting a missing record to 0. -/
def getMonthlyBudget (month : String) (db : DB) : Rat :=
  match db.budgets.find? (fun u => u.month = month) with
  | some b => b.limit
  | none => 0

/-- clearAllData (src/services/db.ts): clears both object stores in one
transaction. -/
def clearAllData (_db : DB) : DB :=
  { transactions := [], budgets := [] }

/-- The sign of String.prototype.localeCompare for the zero-padded ASCII
tokens of this application, where the locale order agrees with code-unit
order. -/
def lcmp (x y : String) : Int :=
  if x < y then -1 else if x = y then 0 else 1

/-- The comparator passed to results.sort in getTransactionsByMonth
(src/services/db.ts): date descending, then, when both records have a
truthy (non-empty) time that differs, time descending, then createdAt
descending via the numeric difference b.createdAt - a.createdAt. -/
def txCmp (a b : Transaction) : Int :=
  if a.date ≠ b.date then lcmp b.date a.date
  else if a.time ≠ "" ∧ b.time ≠ "" ∧ a.time ≠ b.time then lcmp b.time a.time
  else (b.createdAt : Int) - (a.createdAt : Int)

/-- a sorts weakly before b under the comparator txCmp. -/
def txLE (a b : Transaction) : Prop := txCmp a b ≤ 0

instance : DecidableRel txLE := fun a b => by
  unfold txLE; infer_instance

/-- The order in which the date index hands records to getAll: ascending
index key (date), ties in ascending primary key (id). -/
def idxLE (a b : Transaction) : Prop :=
  a.date < b.date ∨ (a.date = b.date ∧ a.id ≤ b.id)

instance : DecidableRel idxLE := fun a b => by
  unfold idxLE; infer_instance

/-- getTransactionsByMonth (src/services/db.ts): query the date index with
the inclusive bound [month-01, month-31], receive the matches in index
order, then sort with the comparator txCmp using the stable Array sort. -/
def getTransactionsByMonth (month : String) (db : DB) : List Transaction :=
  let start := month ++ "-01"
  let stop := month ++ "-31"
  let hits := db.transactions.filter (fun t => start ≤ t.date ∧ t.date ≤ stop)
  (hits.insertionSort idxLE).insertionSort txLE

/-- Ascending primary-key order of the transactions store. -/
def idLE (a b : Transaction) : Prop := a.id ≤ b.id

instance : DecidableRel idLE := fun a b => by
  unfold idLE; infer_instance

/-- Ascending primary-key order of the budgets store. -/
def monthLE (a b : MonthlyBudget) : Prop := a.month ≤ b.month

instance : DecidableRel monthLE := fun a b => by
  unfold monthLE; infer_instance

/-- The snapshot produced by exportDatabase, with every field present
(src/types BackupData). -/
structure BackupData where
  version : Nat
  timestamp : Nat
  transactions : List Transaction
  budgets : List MonthlyBudget
deriving DecidableEq, Repr

/-- A parsed backup JSON object as importDatabase receives it from
App.handleFileChange: either sequence field may be absent. -/
structure BackupJSON where
  transactions : Option (List Transaction)
  budgets : Option (List MonthlyBudget)
deriving DecidableEq, Repr

/-- Reading a full snapshot back as a JSON value: both fields present. -/
def BackupData.toJSON (d : BackupData) : BackupJSON :=
  { transactions := some d.transactions, budgets := some d.budgets }

/-- exportDatabase (src/services/db.ts) in the error-free engine run:
getAll from both stores (primary-key order), wrapped with version 1 and
the current timestamp. -/
def exportDatabase (now : Nat) (db : DB) : BackupData :=
  { version := 1
    timestamp := now
    transactions := db.transactions.insertionSort idLE
    budgets := db.budgets.insertionSort monthLE }

/-- importDatabase (src/services/db.ts): first awaits clearAllData (a
separate, committed transaction), then in one readwrite transaction over
both stores queues an add for every snapshot record.  A missing
transactions field throws before any request is queued; a missing budgets
field throws after the transaction adds are queued, skipping the handler
assignments, so those adds still auto-commit unless one of them fails; a
duplicate key inside the snapshot makes a queued add fail, which aborts
the whole insert transaction, leaving the store cleared. -/
def importDatabase (data : BackupJSON) (db : DB) : DB × Option DBError :=
  let db0 := clearAllData db
  match data.transactions with
  | none => (db0, some DBError.typeError)
  | some ts =>
    match data.budgets with
    | none =>
      if (ts.map (fun t => t.id)).Nodup then
        ({ db0 with transactions := ts }, some DBError.typeError)
      else (db0, some DBError.typeError)
    | some bs =>
      if (ts.map (fun t => t.id)).Nodup ∧ (bs.map (fun b => b.month)).Nodup then
        ({ transactions := ts, budgets := bs }, none)
      else (db0, some DBError.duplicateKey)

/-- The restore flow of App.handleFileChange (src/App.tsx): the parsed
JSON is validated to have truthy transactions and budgets fields before
importDatabase runs; otherwise an invalid-backup error is thrown and the
store is never touched. -/
def importBackup (data : BackupJSON) (db : DB) : DB × Option DBError :=
  if data.transactions.isSome ∧ data.budgets.isSome then
    importDatabase data db
  else
    (db, some DBError.invalidBackup)

/-- Summary.handleSave (src/components/Summary.tsx) with the parsed limit
value: the budget write happens only under the guard val >= 0; a negative
value is dropped without any error being raised. -/
def handleSaveLimit (month : String) (val : Rat) (db : DB) : DB × Option DBError :=
  if 0 ≤ val then (setMonthlyBudget { month := month, limit := val } db, none)
  else (db, none)

/-- exportDatabase with the outcome of each getAll read injected: the
inner getStoreData promise installs only an onsuccess handler, so when a
read fails the promise never settles and the export neither returns a
snapshot nor surfaces the error; none models the never-settling run. -/
def exportDatabaseWithEngine (readT : Except DBError (List Transaction))
    (readB : Except DBError (List MonthlyBudget)) (now : Nat) : Option BackupData :=
  match readT, readB with
  | Except.ok ts, Except.ok bs =>
    some { version := 1, timestamp := now, transactions := ts, budgets := bs }
  | _, _ => none

/-- Transaction A of the ordering example in the specification. -/
def txA : Transaction :=
  { id := "a", description := "x", amount := 1, method := PaymentMethod.DEBIT
    date := "2024-05-10", time := "09:00", createdAt := 100 }

/-- Transaction B of the ordering example in the specification. -/
def txB : Transaction :=
  { id := "b", description := "x", amount := 1, method := PaymentMethod.DEBIT
    date := "2024-05-10", time := "09:00", createdAt := 200 }

/-- Transaction C of the ordering example in the specification. -/
def txC : Transaction :=
  { id := "c", description := "x", amount := 1, method := PaymentMethod.DEBIT
    date := "2024-05-11", time := "08:00", createdAt := 1 }

/-- A store holding exactly the three example transactions. -/
def sortExampleDB : DB := { transactions := [txA, txB, txC], budgets := [] }

/-- A same-date transaction with a non-empty time and the smallest
createdAt, part of the mixed-time store. -/
def txX : Transaction :=
  { id := "a", description := "x", amount := 1, method := PaymentMethod.DEBIT
    date := "2024-05-10", time := "10:00", createdAt := 1 }

/-- A same-date transaction with an empty time, part of the mixed-time
store. -/
def txY : Transaction :=
  { id := "b", description := "x", amount := 1, method := PaymentMethod.DEBIT
    date := "2024-05-10", time := "", createdAt := 2 }

/-- A same-date transaction with a non-empty time and the largest
createdAt, part of the mixed-time store. -/
def txZ : Transaction :=
  { id := "c", description := "x", amount := 1, method := PaymentMethod.DEBIT
    date := "2024-05-10", time := "09:00", createdAt := 3 }

/-- A store with one empty-time record, on which the month-query
comparator is not transitive. -/
def mixedTimeDB : DB := { transactions := [txX, txY, txZ], budgets := [] }

/-- A leap-day transaction for the month-boundary example. -/
def tFeb29 : Transaction :=
  { id := "p", description := "x", amount := 1, method := PaymentMethod.DEBIT
    date := "2024-02-29", time := "09:00", createdAt := 5 }

/-- An April 30 transaction for the month-boundary example. -/
def tApr30 : Transaction :=
  { id := "q", description := "x", amount := 1, method := PaymentMethod.DEBIT
    date := "2024-04-30", time := "09:00", createdAt := 6 }

/-- A store holding the two month-boundary example transactions. -/
def boundaryDB : DB := { transactions := [tFeb29, tApr30], budgets := [] }

/-- A non-empty store used to exhibit that failed operations leave the
content untouched. -/
def sampleDB : DB :=
  { transactions := [tFeb29, tApr30]
    budgets := [{ month := "2024-02", limit := 500 }] }

/-- The localeCompare sign is nonpositive exactly when the first string is
at most the second. -/
theorem lcmp_nonpos {x y : String} : lcmp x y ≤ 0 ↔ x ≤ y := by
  unfold lcmp
  rcases lt_trichotomy x y with h | h | h
  · simp [h, le_of_lt h]
  · simp [h, lt_irrefl]
  · have h1 : ¬ x < y := not_lt.mpr h.le
    have h2 : x ≠ y := ne_of_gt h
    simp [h1, h2, not_le.mpr h]

/-- Swapping the arguments of the localeCompare sign negates it. -/
theorem lcmp_swap (x y : String) : lcmp y x = - lcmp x y := by
  unfold lcmp
  rcases lt_trichotomy x y with h | h | h
  · rw [if_pos h, if_neg (asymm h), if_neg (ne_of_gt h)]
    norm_num
  · subst h
    rw [if_neg (lt_irrefl x), if_pos rfl]
    norm_num
  · rw [if_pos h, if_neg (asymm h), if_neg (ne_of_gt h)]

/-- The comparator is antisymmetric: swapping the arguments negates the
returned sign. -/
theorem txCmp_antisymm (a b : Transaction) : txCmp b a = - txCmp a b := by
  unfold txCmp
  by_cases hd : a.date = b.date
  · rw [if_neg (not_not_intro hd.symm), if_neg (not_not_intro hd)]
    by_cases ht : a.time = b.time
    · rw [if_neg (fun h => h.2.2 ht.symm), if_neg (fun h => h.2.2 ht)]
      omega
    · by_cases ha : a.time = ""
      · rw [if_neg (fun h => h.2.1 ha), if_neg (fun h => h.1 ha)]
        omega
      · by_cases hb : b.time = ""
        · rw [if_neg (fun h => h.1 hb), if_neg (fun h => h.2.1 hb)]
          omega
        · rw [if_pos ⟨hb, ha, Ne.symm ht⟩, if_pos ⟨ha, hb, ht⟩]
          exact lcmp_swap b.time a.time
  · rw [if_pos (Ne.symm hd), if_pos hd]
    exact lcmp_swap b.date a.date

/-- The comparator relation is total. -/
theorem txLE_total (a b : Transaction) : txLE a b ∨ txLE b a := by
  unfold txLE
  have h := txCmp_antisymm a b
  omega


/-- When both records carry a non-empty time, the comparator orders them
lexicographically: date descending, then time descending, then createdAt
descending. -/
theorem txLE_iff_of_time_ne (a b : Transaction) (ha : a.time ≠ "") (hb : b.time ≠ "") :
    txLE a b ↔
      b.date < a.date ∨
        (b.date = a.date ∧
          (b.time < a.time ∨ (b.time = a.time ∧ b.createdAt ≤ a.createdAt))) := by
  unfold txLE txCmp
  by_cases hd : a.date = b.date
  · rw [if_neg (not_not_intro hd)]
    by_cases ht : a.time = b.time
    · rw [if_neg (fun h => h.2.2 ht)]
      constructor
      · intro h
        exact Or.inr ⟨hd.symm, Or.inr ⟨ht.symm, by omega⟩⟩
      · rintro (h | ⟨-, h | ⟨-, h⟩⟩)
        · exact absurd hd.symm (ne_of_lt h)
        · exact absurd ht.symm (ne_of_lt h)
        · omega
    · rw [if_pos ⟨ha, hb, ht⟩]
      rw [lcmp_nonpos]
      constructor
      · intro h
        exact Or.inr ⟨hd.symm, Or.inl (lt_of_le_of_ne h (fun e => ht e.symm))⟩
      · rintro (h | ⟨-, h | ⟨he, -⟩⟩)
        · exact absurd hd.symm (ne_of_lt h)
        · exact le_of_lt h
        · exact absurd he.symm ht
  · rw [if_pos hd, lcmp_nonpos]
    constructor
    · intro h
      exact Or.inl (lt_of_le_of_ne h (fun e => hd e.symm))
    · rintro (h | ⟨he, -⟩)
      · exact le_of_lt h
      · exact absurd he (fun e => hd e.symm)

/-- On records with non-empty times the comparator relation is
transitive. -/
theorem txLE_trans_of_time_ne (a b c : Transaction)
    (ha : a.time ≠ "") (hb : b.time ≠ "") (hc : c.time ≠ "")
    (hab : txLE a b) (hbc : txLE b c) : txLE a c := by
  rw [txLE_iff_of_time_ne a b ha hb] at hab
  rw [txLE_iff_of_time_ne b c hb hc] at hbc
  rw [txLE_iff_of_time_ne a c ha hc]
  rcases hab with h1 | ⟨hd1, h1⟩
  · rcases hbc with h2 | ⟨hd2, h2⟩
    · exact Or.inl (lt_trans h2 h1)
    · exact Or.inl (hd2 ▸ h1)
  · rcases hbc with h2 | ⟨hd2, h2⟩
    · exact Or.inl (hd1 ▸ h2)
    · refine Or.inr ⟨hd1 ▸ hd2, ?_⟩
      rcases h1 with h1 | ⟨ht1, h1⟩
      · rcases h2 with h2 | ⟨ht2, h2⟩
        · exact Or.inl (lt_trans h2 h1)
        · exact Or.inl (ht2 ▸ h1)
      · rcases h2 with h2 | ⟨ht2, h2⟩
        · exact Or.inl (ht1 ▸ h2)
        · exact Or.inr ⟨ht1 ▸ ht2, le_trans h2 h1⟩

/-- Inserting a non-empty-time record into a sorted list of
non-empty-time records keeps the list sorted for the comparator. -/
theorem pairwise_orderedInsert_txLE (a : Transaction) (l : List Transaction)
    (ha : a.time ≠ "") (hl : ∀ x ∈ l, x.time ≠ "") (h : l.Pairwise txLE) :
    (l.orderedInsert txLE a).Pairwise txLE := by
  induction l with
  | nil => simp [List.orderedInsert]
  | cons b t ih =>
    rw [List.orderedInsert]
    rcases List.pairwise_cons.mp h with ⟨hb, ht⟩
    by_cases hab : txLE a b
    · rw [if_pos hab]
      refine List.pairwise_cons.mpr ⟨?_, h⟩
      intro x hx
      rcases List.mem_cons.mp hx with rfl | hx
      · exact hab
      · exact txLE_trans_of_time_ne a b x ha (hl b (List.mem_cons_self b t))
          (hl x (List.mem_cons_of_mem b hx)) hab (hb x hx)
    · rw [if_neg hab]
      refine List.pairwise_cons.mpr ⟨?_, ?_⟩
      · intro x hx
        rcases (List.perm_orderedInsert txLE a t).mem_iff.mp hx with hx2
        rcases List.mem_cons.mp hx2 with rfl | hx3
        · exact (txLE_total x b).resolve_left hab
        · exact hb x hx3
      · exact ih (fun x hx => hl x (List.mem_cons_of_mem b hx)) ht

/-- Insertion sort of non-empty-time records is sorted for the
comparator. -/
theorem pairwise_insertionSort_txLE (l : List Transaction)
    (hl : ∀ x ∈ l, x.time ≠ "") : (l.insertionSort txLE).Pairwise txLE := by
  induction l with
  | nil => simp [List.insertionSort]
  | cons a t ih =>
    rw [List.insertionSort]
    refine pairwise_orderedInsert_txLE a (t.insertionSort txLE)
      (hl a (List.mem_cons_self a t)) ?_ (ih ?_)
    · intro x hx
      exact hl x (List.mem_cons_of_mem a ((List.perm_insertionSort txLE t).mem_iff.mp hx))
    · intro x hx
      exact hl x (List.mem_cons_of_mem a hx)

/-- Membership in the month query result is membership in the store
inside the inclusive lexicographic date range of the month token. -/
theorem mem_getTransactionsByMonth (m : String) (db : DB) (t : Transaction) :
    t ∈ getTransactionsByMonth m db ↔
      t ∈ db.transactions ∧ m ++ "-01" ≤ t.date ∧ t.date ≤ m ++ "-31" := by
  unfold getTransactionsByMonth
  rw [(List.perm_insertionSort txLE _).mem_iff, (List.perm_insertionSort idxLE _).mem_iff,
    List.mem_filter]
  simp

/-- Replacing the matching records of a list that contains one leaves the
put record as the first match found. -/
theorem find?_map_replace (l : List MonthlyBudget) (m : String) (v : Rat)
    (hany : l.any (fun u => u.month = m) = true) :
    (l.map (fun u => if u.month = m then { month := m, limit := v } else u)).find?
        (fun u => u.month = m) = some { month := m, limit := v } := by
  induction l with
  | nil => simp at hany
  | cons b t ih =>
    by_cases hb : b.month = m
    · simp [List.find?, hb]
    · have ht : t.any (fun u => u.month = m) = true := by
        simpa [List.any_cons, hb] using hany
      simp [List.find?, hb, ih ht]

/-- Appending a fresh record for month m to a list with no record for m
makes it the record found for m. -/
theorem find?_append_new (l : List MonthlyBudget) (m : String) (v : Rat)
    (hnone : ∀ u ∈ l, u.month ≠ m) :
    (l ++ [({ month := m, limit := v } : MonthlyBudget)]).find? (fun u => u.month = m) =
      some ({ month := m, limit := v } : MonthlyBudget) := by
  induction l with
  | nil => simp
  | cons b t ih =>
    have hb := hnone b (List.mem_cons_self b t)
    simp only [List.cons_append, List.find?]
    rw [decide_eq_false hb]
    exact ih (fun u hu => hnone u (List.mem_cons_of_mem b hu))

/-- Reading a budget right after writing it returns the written limit. -/
theorem getMonthlyBudget_set (m : String) (v : Rat) (db : DB) :
    getMonthlyBudget m (setMonthlyBudget { month := m, limit := v } db) = v := by
  unfold getMonthlyBudget setMonthlyBudget
  by_cases hany : db.budgets.any (fun u => u.month = m) = true
  · rw [if_pos hany, find?_map_replace db.budgets m v hany]
  · rw [if_neg hany, find?_append_new db.budgets m v ?_]
    intro u hu
    intro he
    exact hany (List.any_eq_true.mpr ⟨u, hu, decide_eq_true he⟩)

/-- Claim C1, round-trip law: for a store whose transactions have
distinct ids and whose budgets have distinct months, importing the
snapshot returned by export succeeds and yields a store whose Transaction
collection and MonthlyBudget collection are permutations of the original
ones, hence identical as sets of keyed records. -/
theorem backup_round_trip (db : DB) (now : Nat)
    (hT : (db.transactions.map (fun t => t.id)).Nodup)
    (hB : (db.budgets.map (fun b => b.month)).Nodup) :
    (importDatabase (BackupData.toJSON (exportDatabase now db)) db).2 = none ∧
      (importDatabase (BackupData.toJSON (exportDatabase now db)) db).1.transactions.Perm
        db.transactions ∧
      (importDatabase (BackupData.toJSON (exportDatabase now db)) db).1.budgets.Perm
        db.budgets := by
  have pT : (db.transactions.insertionSort idLE).Perm db.transactions :=
    List.perm_insertionSort idLE db.transactions
  have pB : (db.budgets.insertionSort monthLE).Perm db.budgets :=
    List.perm_insertionSort monthLE db.budgets
  have hT2 : ((db.transactions.insertionSort idLE).map (fun t => t.id)).Nodup :=
    ((pT.map (fun t => t.id)).nodup_iff).mpr hT
  have hB2 : ((db.budgets.insertionSort monthLE).map (fun b => b.month)).Nodup :=
    ((pB.map (fun b => b.month)).nodup_iff).mpr hB
  unfold importDatabase BackupData.toJSON exportDatabase
  dsimp only
  rw [if_pos ⟨hT2, hB2⟩]
  exact ⟨rfl, pT, pB⟩

/-- Witness for claim C1 at a concrete store with two transactions and
one budget. -/
theorem backup_round_trip_witness :
    (importDatabase (BackupData.toJSON (exportDatabase 7 sampleDB)) sampleDB).2 = none ∧
      (importDatabase (BackupData.toJSON (exportDatabase 7 sampleDB)) sampleDB).1.transactions.Perm
        sampleDB.transactions ∧
      (importDatabase (BackupData.toJSON (exportDatabase 7 sampleDB)) sampleDB).1.budgets.Perm
        sampleDB.budgets :=
  backup_round_trip sampleDB 7 (by decide) (by decide)

/-- Claim C2, import validation with atomicity on error: the restore flow
rejects a parsed backup missing the transactions field or the budgets
field with the invalid-backup error and leaves the store untouched. -/
theorem import_missing_field_rejected (db : DB) (data : BackupJSON)
    (h : data.transactions = none ∨ data.budgets = none) :
    importBackup data db = (db, some DBError.invalidBackup) := by
  rcases h with h | h <;> simp [importBackup, h]

/-- Witness for claim C2: importing the empty object into a non-empty
store fails with the invalid-backup error and changes nothing. -/
theorem import_missing_field_rejected_witness :
    importBackup { transactions := none, budgets := none } sampleDB =
      (sampleDB, some DBError.invalidBackup) :=
  import_missing_field_rejected sampleDB { transactions := none, budgets := none }
    (Or.inl rfl)

/-- Claim C3 counterexample: in a store with one empty-time record the
month query output is [X, Z, Y] although the claimed order demands Y
(createdAt 2) before X (createdAt 1), since their comparison skips the
time field; the returned sequence is not totally ordered by the claimed
relation. -/
theorem month_query_ordering_cex :
    getTransactionsByMonth "2024-05" mixedTimeDB = [txX, txZ, txY] ∧
      ¬ (getTransactionsByMonth "2024-05" mixedTimeDB).Pairwise txLE := by
  constructor
  · decide
  · decide

/-- Claim C3, amended: for a store in which every transaction has a
non-empty time, the month query output is totally ordered by date
descending, then time descending, then createdAt descending; and the
concrete example store returns [C, B, A] for the month 2024-05. -/
theorem month_query_ordering (m : String) (db : DB)
    (h : ∀ t ∈ db.transactions, t.time ≠ "") :
    (getTransactionsByMonth m db).Pairwise (fun a b =>
        b.date < a.date ∨
          (b.date = a.date ∧
            (b.time < a.time ∨ (b.time = a.time ∧ b.createdAt ≤ a.createdAt)))) ∧
      getTransactionsByMonth "2024-05" sortExampleDB = [txC, txB, txA] := by
  constructor
  · have hgood : ∀ t ∈ getTransactionsByMonth m db, t.time ≠ "" := by
      intro t ht
      exact h t ((mem_getTransactionsByMonth m db t).mp ht).1
    have hpw : (getTransactionsByMonth m db).Pairwise txLE := by
      unfold getTransactionsByMonth
      refine pairwise_insertionSort_txLE _ ?_
      intro x hx
      have hx2 := (List.perm_insertionSort idxLE _).mem_iff.mp hx
      exact h x (List.mem_filter.mp hx2).1
    refine hpw.imp_of_mem ?_
    intro a b hma hmb hab
    exact (txLE_iff_of_time_ne a b (hgood a hma) (hgood b hmb)).mp hab
  · decide

/-- Witness for the amended claim C3 at the example store, whose
transactions all carry a non-empty time. -/
theorem month_query_ordering_witness :
    (getTransactionsByMonth "2024-05" sortExampleDB).Pairwise (fun a b =>
        b.date < a.date ∨
          (b.date = a.date ∧
            (b.time < a.time ∨ (b.time = a.time ∧ b.createdAt ≤ a.createdAt)))) ∧
      getTransactionsByMonth "2024-05" sortExampleDB = [txC, txB, txA] :=
  month_query_ordering "2024-05" sortExampleDB (by decide)

/-- Claim C4, month-boundary membership: the month query returns exactly
the stored transactions whose date lies lexicographically in the
inclusive range given by the month token, so the leap day 2024-02-29
belongs to February 2024 and not to March, and 2024-04-30 belongs to
April 2024. -/
theorem month_boundary_membership (m : String) (db : DB) (t : Transaction) :
    (t ∈ getTransactionsByMonth m db ↔
        t ∈ db.transactions ∧ m ++ "-01" ≤ t.date ∧ t.date ≤ m ++ "-31") ∧
      tFeb29 ∈ getTransactionsByMonth "2024-02" boundaryDB ∧
      tFeb29 ∉ getTransactionsByMonth "2024-03" boundaryDB ∧
      tApr30 ∈ getTransactionsByMonth "2024-04" boundaryDB :=
  ⟨mem_getTransactionsByMonth m db t, by decide, by decide, by decide⟩

/-- Claim C5, import replaces rather than merges: a successful import of
a valid snapshot first clears both stores and then inserts every snapshot
record, so the resulting store holds exactly the snapshot records and no
pre-import record survives. -/
theorem import_replaces_store (db : DB) (ts : List Transaction) (bs : List MonthlyBudget)
    (hT : (ts.map (fun t => t.id)).Nodup) (hB : (bs.map (fun b => b.month)).Nodup) :
    importDatabase { transactions := some ts, budgets := some bs } db =
      ({ transactions := ts, budgets := bs }, none) := by
  unfold importDatabase
  dsimp only
  rw [if_pos ⟨hT, hB⟩]

/-- Witness for claim C5: importing a one-transaction snapshot into the
non-empty sample store yields exactly the snapshot content. -/
theorem import_replaces_store_witness :
    importDatabase { transactions := some [txA], budgets := some [] } sampleDB =
      ({ transactions := [txA], budgets := [] }, none) :=
  import_replaces_store sampleDB [txA] [] (by decide) (by decide)

/-- Claim C6, uniqueness on add: adding a transaction whose id is already
stored fails with the duplicate-key error and leaves the store unchanged;
adding one with a fresh id succeeds and appends the record to the
store. -/
theorem add_duplicate_key (t : Transaction) (db : DB) :
    ((∃ u ∈ db.transactions, u.id = t.id) →
        addTransaction t db = (db, some DBError.duplicateKey)) ∧
      ((∀ u ∈ db.transactions, u.id ≠ t.id) →
        addTransaction t db = ({ db with transactions := db.transactions ++ [t] }, none) ∧
          t ∈ (addTransaction t db).1.transactions) := by
  constructor
  · rintro ⟨u, hu, hid⟩
    unfold addTransaction
    rw [if_pos (List.any_eq_true.mpr ⟨u, hu, decide_eq_true hid⟩)]
  · intro h
    have heq : addTransaction t db =
        ({ db with transactions := db.transactions ++ [t] }, none) := by
      unfold addTransaction
      rw [if_neg ?_]
      intro hc
      rcases List.any_eq_true.mp hc with ⟨u, hu, hid⟩
      exact h u hu (of_decide_eq_true hid)
    exact ⟨heq, by rw [heq]; simp⟩

/-- Witness for claim C6: re-adding a stored transaction fails with the
duplicate-key error and leaves the sample store unchanged, and adding a
fresh-id transaction succeeds. -/
theorem add_duplicate_key_witness :
    addTransaction tFeb29 sampleDB = (sampleDB, some DBError.duplicateKey) ∧
      addTransaction txA sampleDB =
        ({ sampleDB with transactions := sampleDB.transactions ++ [txA] }, none) :=
  ⟨(add_duplicate_key tFeb29 sampleDB).1 ⟨tFeb29, by decide, rfl⟩,
    ((add_duplicate_key txA sampleDB).2 (by decide)).1⟩

/-- Claim C7, budget default: a month with no stored budget record reads
as limit 0 and never as an error, a month with a stored record (under
distinct months) reads as that record's limit, and the month 2099-01 on
the empty store reads as 0. -/
theorem budget_default_zero (m : String) (db : DB) :
    ((∀ b ∈ db.budgets, b.month ≠ m) → getMonthlyBudget m db = 0) ∧
      (∀ b ∈ db.budgets, b.month = m → (db.budgets.map (fun u => u.month)).Nodup →
        getMonthlyBudget m db = b.limit) ∧
      getMonthlyBudget "2099-01" { transactions := [], budgets := [] } = 0 := by
  refine ⟨?_, ?_, rfl⟩
  · intro h
    unfold getMonthlyBudget
    rw [List.find?_eq_none.mpr ?_]
    intro b hb
    simpa using h b hb
  · intro b hb hbm hnd
    unfold getMonthlyBudget
    cases hf : db.budgets.find? (fun u => u.month = m) with
    | none =>
      have := List.find?_eq_none.mp hf b hb
      simp [hbm] at this
    | some b2 =>
      have hmem := List.mem_of_find?_eq_some hf
      have hpred : b2.month = m := by simpa using List.find?_some hf
      have hbb : b2 = b :=
        List.inj_on_of_nodup_map hnd hmem hb (by rw [hpred, hbm])
      rw [hbb]

/-- Witness for claim C7: the empty store reads 0 for 2099-01 and the
sample store reads its stored limit for 2024-02. -/
theorem budget_default_zero_witness :
    getMonthlyBudget "2099-01" { transactions := [], budgets := [] } = 0 ∧
      getMonthlyBudget "2024-02" sampleDB = 500 :=
  ⟨(budget_default_zero "2099-01" { transactions := [], budgets := [] }).1
      (by decide),
    (budget_default_zero "2024-02" sampleDB).2.1 { month := "2024-02", limit := 500 }
      (by decide) rfl (by decide)⟩

/-- Claim C8 counterexample: saving the negative limit -1 completes with
no error at all (the write is silently dropped), so the operation does
not fail with the validation error the claim asserts; the store is left
unchanged. -/
theorem negative_limit_cex :
    handleSaveLimit "2024-01" (-1) sampleDB = (sampleDB, none) ∧
      (handleSaveLimit "2024-01" (-1) sampleDB).2 ≠ some DBError.validationError := by
  constructor
  · decide
  · decide

/-- Claim C8, amended: a negative limit is rejected silently, before any
store write, with no error surfaced and the stored budgets unchanged; a
non-negative limit upserts the budget record for the month, after which
the stored limit for that month reads back as the written value. -/
theorem negative_limit_guard (m : String) (v : Rat) (db : DB) :
    (v < 0 → handleSaveLimit m v db = (db, none)) ∧
      (0 ≤ v →
        handleSaveLimit m v db = (setMonthlyBudget { month := m, limit := v } db, none) ∧
          getMonthlyBudget m (handleSaveLimit m v db).1 = v) := by
  constructor
  · intro h
    unfold handleSaveLimit
    rw [if_neg (not_le.mpr h)]
  · intro h
    have heq : handleSaveLimit m v db =
        (setMonthlyBudget { month := m, limit := v } db, none) := by
      unfold handleSaveLimit
      rw [if_pos h]
    exact ⟨heq, by rw [heq]; exact getMonthlyBudget_set m v db⟩

/-- Witness for the amended claim C8: a negative save leaves the sample
store unchanged without error, and a non-negative save is readable
back. -/
theorem negative_limit_guard_witness :
    handleSaveLimit "2024-01" (-2) sampleDB = (sampleDB, none) ∧
      getMonthlyBudget "2024-03" (handleSaveLimit "2024-03" 120 sampleDB).1 = 120 :=
  ⟨(negative_limit_guard "2024-01" (-2) sampleDB).1 (by decide),
    ((negative_limit_guard "2024-03" 120 sampleDB).2 (by decide)).2⟩

/-- Claim C9, error propagation, refuting instance supporting the
code-bug verdict: when the engine fails either getAll read, the export
operation neither returns a snapshot nor surfaces the error; the promise
never settles because getStoreData installs no failure handler. -/
theorem export_read_error_never_settles (e : DBError)
    (readT : Except DBError (List Transaction))
    (readB : Except DBError (List MonthlyBudget)) (now : Nat) :
    exportDatabaseWithEngine (Except.error e) readB now = none ∧
      exportDatabaseWithEngine readT (Except.error e) now = none := by
  constructor
  · cases readB <;> rfl
  · cases readT <;> rfl

/-- Claim C10, cross-kind frame property: the transaction operations
leave the budgets store untouched and the budget write leaves the
transactions store untouched, for every store and argument. -/
theorem cross_kind_frame (t : Transaction) (id : String) (b : MonthlyBudget) (db : DB) :
    (addTransaction t db).1.budgets = db.budgets ∧
      (updateTransaction t db).budgets = db.budgets ∧
      (deleteTransaction id db).budgets = db.budgets ∧
      (setMonthlyBudget b db).transactions = db.transactions := by
  refine ⟨?_, ?_, rfl, ?_⟩
  · unfold addTransaction
    split <;> rfl
  · unfold updateTransaction
    split <;> rfl
  · unfold setMonthlyBudget
    split <;> rfl
